/-
Verification of the SQLite forensic engine of ios-forensics-mcp.

Shallow embedding of the byte-level and validation logic of
  - tools/sqlite/analyzer.py   (is_sqlite_database, analyze_schema, execute_query,
                                recover_deleted_records)
  - tools/sqlite/freelist.py   (_read_database_header, _collect_freelist_pages,
                                _decode_varint)
  - tools/sqlite/wal_analyzer.py (WALAnalyzer._analyze_header, _analyze_frames,
                                compare_with_db, extract_deleted_records)

Files are modelled as lists of byte values (List Nat); Python strings as
List Char.  File-system effects (opens, copies, removals) are modelled as an
explicit event trace emitted by each operation, and the external SQL engine
(python sqlite3) is an abstract parameter of the environment.
-/
import Mathlib

/-! ## Byte-level utilities -/

/-- Contiguous slice of a byte list: `n` bytes starting at `off` (shorter when
the list ends early, like a Python file `read` after `seek`). -/
def sliceN (l : List Nat) (off n : Nat) : List Nat := (l.drop off).take n

/-- Little-endian 32-bit decode of a 4-byte slice (struct.unpack with format
string is only applied to exact 4-byte slices in the source). -/
def le32 (bs : List Nat) : Nat :=
  match bs with
  | [a, b, c, d] => a + 256 * (b + 256 * (c + 256 * d))
  | _ => 0

/-- Big-endian 32-bit decode of a 4-byte slice. -/
def be32 (bs : List Nat) : Nat :=
  match bs with
  | [a, b, c, d] => ((a * 256 + b) * 256 + c) * 256 + d
  | _ => 0

/-- struct.unpack decode of a big-endian u32 at `off`, `none` when fewer than
4 bytes are available there (Python struct.error). -/
def readBE32 (db : List Nat) (off : Nat) : Option Nat :=
  let bs := sliceN db off 4
  if bs.length = 4 then some (be32 bs) else none

/-- struct.unpack decode of a big-endian u16 at `off`, `none` when fewer than
2 bytes are available there. -/
def readBE16 (db : List Nat) (off : Nat) : Option Nat :=
  match sliceN db off 2 with
  | [a, b] => some (a * 256 + b)
  | _ => none

/-! ## Python string primitives used by execute_query

`str.strip()`, `str.upper()` and `str.split()` (whitespace split) modelled over
`List Char`. -/

/-- Python whitespace test for the characters relevant to `str.strip`/`split`. -/
def pyIsSpace (c : Char) : Bool :=
  c == ' ' || c == '\t' || c == '\n' || c == '\r' || c == '\x0b' || c == '\x0c'

/-- Python `str.strip()`: remove leading and trailing whitespace. -/
def pyStrip (l : List Char) : List Char :=
  (l.dropWhile pyIsSpace).rdropWhile pyIsSpace

/-- Python `str.upper()` on ASCII text. -/
def pyUpper (l : List Char) : List Char := l.map Char.toUpper

/-- Python `str.split()` with no argument: the maximal whitespace-free runs. -/
def pySplit (l : List Char) : List (List Char) :=
  (l.splitOnP pyIsSpace).filter (fun t => !t.isEmpty)

theorem pySplit_nil : pySplit [] = [] := rfl

theorem pySplit_cons_pos (c : Char) (l : List Char) (h : pyIsSpace c = true) :
    pySplit (c :: l) = pySplit l := by
  simp [pySplit, List.splitOnP_cons, h]

theorem modifyHead_append_of_ne_nil (f : List Char → List Char)
    (xs ys : List (List Char)) (h : xs ≠ []) :
    (xs ++ ys).modifyHead f = xs.modifyHead f ++ ys := by
  cases xs with
  | nil => exact absurd rfl h
  | cons x xs => simp

theorem splitOnP_concat_pos (p : Char → Bool) (a : Char) (h : p a = true) :
    ∀ l : List Char, (l ++ [a]).splitOnP p = l.splitOnP p ++ [[]] := by
  intro l
  induction l with
  | nil => simp [List.splitOnP_cons, h]
  | cons c l ih =>
      by_cases hc : p c = true
      · simp [List.splitOnP_cons, hc, ih]
      · simp only [List.cons_append, List.splitOnP_cons, hc, if_false, ih]
        exact modifyHead_append_of_ne_nil _ _ _ (List.splitOnP_ne_nil _ l)

theorem pySplit_concat_pos (c : Char) (l : List Char) (h : pyIsSpace c = true) :
    pySplit (l ++ [c]) = pySplit l := by
  simp [pySplit, splitOnP_concat_pos pyIsSpace c h l, List.filter_append]

theorem pySplit_ws_prefix :
    ∀ pre l : List Char, (∀ c ∈ pre, pyIsSpace c = true) →
      pySplit (pre ++ l) = pySplit l := by
  intro pre
  induction pre with
  | nil => intro l _; rfl
  | cons c pre ih =>
      intro l h
      rw [List.cons_append, pySplit_cons_pos c _ (h c (by simp))]
      exact ih l (fun x hx => h x (by simp [hx]))

theorem pySplit_ws_suffix (suf : List Char)
    (hs : ∀ c ∈ suf, pyIsSpace c = true) :
    ∀ l : List Char, pySplit (l ++ suf) = pySplit l := by
  induction suf using List.reverseRecOn with
  | nil => intro l; simp
  | append_singleton suf a ih =>
      intro l
      rw [← List.append_assoc,
        pySplit_concat_pos a _ (hs a (by simp)),
        ih (fun x hx => hs x (by simp [hx]))]

theorem rdropWhile_append_rtakeWhile (p : Char → Bool) (l : List Char) :
    l.rdropWhile p ++ l.rtakeWhile p = l := by
  rw [List.rdropWhile, List.rtakeWhile, ← List.reverse_append,
    List.takeWhile_append_dropWhile, List.reverse_reverse]

theorem toUpper_of_space (c : Char) (h : pyIsSpace c = true) :
    c.toUpper = c := by
  simp only [pyIsSpace, Bool.or_eq_true, beq_iff_eq] at h
  rcases h with ((((h | h) | h) | h) | h) | h <;> subst h <;> decide

/-- str.split of the uppercased string is insensitive to a preceding
str.strip: stripping only removes whitespace at the two ends, which changes
no whitespace-free run. -/
theorem pySplit_pyUpper_pyStrip (q : List Char) :
    pySplit (pyUpper (pyStrip q)) = pySplit (pyUpper q) := by
  have hq : List.takeWhile pyIsSpace q ++ List.dropWhile pyIsSpace q = q :=
    List.takeWhile_append_dropWhile pyIsSpace q
  have hm : (q.dropWhile pyIsSpace).rdropWhile pyIsSpace ++
      (q.dropWhile pyIsSpace).rtakeWhile pyIsSpace = q.dropWhile pyIsSpace :=
    rdropWhile_append_rtakeWhile pyIsSpace _
  have hws : ∀ c ∈ pyUpper (List.takeWhile pyIsSpace q), pyIsSpace c = true := by
    intro c hc
    rcases List.mem_map.mp hc with ⟨d, hd, rfl⟩
    have hdws : pyIsSpace d = true := List.mem_takeWhile_imp hd
    rw [toUpper_of_space d hdws]; exact hdws
  have hws2 : ∀ c ∈ pyUpper ((q.dropWhile pyIsSpace).rtakeWhile pyIsSpace),
      pyIsSpace c = true := by
    intro c hc
    rcases List.mem_map.mp hc with ⟨d, hd, rfl⟩
    have hdws : pyIsSpace d = true := List.mem_rtakeWhile_imp hd
    rw [toUpper_of_space d hdws]; exact hdws
  conv_rhs => rw [← hq]
  rw [show pyUpper (List.takeWhile pyIsSpace q ++ List.dropWhile pyIsSpace q) =
      pyUpper (List.takeWhile pyIsSpace q) ++ pyUpper (List.dropWhile pyIsSpace q) from
      List.map_append _ _ _,
    pySplit_ws_prefix _ _ hws]
  conv_rhs => rw [← hm]
  rw [show pyUpper ((q.dropWhile pyIsSpace).rdropWhile pyIsSpace ++
        (q.dropWhile pyIsSpace).rtakeWhile pyIsSpace) =
      pyUpper ((q.dropWhile pyIsSpace).rdropWhile pyIsSpace) ++
        pyUpper ((q.dropWhile pyIsSpace).rtakeWhile pyIsSpace) from
      List.map_append _ _ _,
    pySplit_ws_suffix _ hws2]
  rfl

/-! ## Forensic accessor model (tools/sqlite/analyzer.py)

The file system visible to one call is the database at `db_path` plus its
`-wal`/`-shm` siblings; the external sqlite3 binding is abstracted as a
function from the SQL text to either rows or an engine error message. Every
file-level effect of a call is recorded in an event trace. -/

/-- Files a call can touch: the three original evidence files, their scratch
copies, and the scratch recovery database of extract_deleted_records. -/
inductive FileRef
  | orig | origWal | origShm | scratchDb | scratchWal | scratchShm | scratchRecovery
deriving DecidableEq, Repr

/-- File-system events, in program order.  readFile covers open(..,'rb') reads;
openConnRO is sqlite3.connect("file:..?mode=ro", uri=True); openConnRW is
sqlite3.connect(path) with its default write-capable mode. -/
inductive Ev
  | readFile (f : FileRef)
  | openConnRO (f : FileRef)
  | openConnRW (f : FileRef)
  | copyFile (src dst : FileRef)
  | mkScratchDir
  | execSql
  | removeFile (f : FileRef)
  | removeDir
deriving DecidableEq, Repr

/-- True when the trace removes no scratch file and no scratch directory. -/
def removesNothing (t : List Ev) : Bool :=
  t.all fun e =>
    match e with
    | .removeFile _ => false
    | .removeDir => false
    | _ => true

/-- Result rows handed back by the abstract sqlite3 engine. -/
structure EngineResult where
  columns : List String
  rows : List (List Nat)
deriving DecidableEq, Repr

/-- Environment of one call: whether each original file exists, the database
bytes, and the abstract engine behaviour (per SQL text, and for the schema
enumeration of analyze_schema as a whole). -/
structure Env where
  dbExists : Bool
  dbBytes : List Nat
  walExists : Bool
  shmExists : Bool
  engine : List Char → Except String EngineResult
  schemaOp : Except String Unit

/-- Bytes of the 16-byte magic string b"SQLite format 3\x00". -/
def sqliteMagic : List Nat :=
  [83, 81, 76, 105, 116, 101, 32, 102, 111, 114, 109, 97, 116, 32, 51, 0]

/-- is_sqlite_database (analyzer.py:16): the file exists and its first
16 bytes equal the magic string. -/
def is_sqlite_database (env : Env) : Bool :=
  env.dbExists && (env.dbBytes.take 16 == sqliteMagic)

/-- Proposition: the database file at db_path passes is_sqlite_database. -/
def magicOk (env : Env) : Prop :=
  env.dbExists = true ∧ env.dbBytes.take 16 = sqliteMagic

instance (env : Env) : Decidable (magicOk env) := by
  unfold magicOk; infer_instance

/-- Validation errors raised by execute_query before any copy is made. -/
inductive VError
  | emptyQuery
  | multipleStatements
  | forbidden (kw : List Char)
deriving DecidableEq, Repr

/-- Errors of the analyzer operations: the ValueError for a bad magic header,
the query-validation ValueErrors, and a re-raised engine exception. -/
inductive QError
  | notASqliteDatabase
  | validation (e : VError)
  | engine (msg : String)
deriving DecidableEq, Repr

/-- The denylist of analyzer.py:281, in source order. -/
def forbidden_keywords : List (List Char) :=
  ["DROP".toList, "DELETE".toList, "UPDATE".toList, "INSERT".toList,
   "ALTER".toList, "ATTACH".toList, "DETACH".toList, "PRAGMA".toList]

/-- Query validation of execute_query (analyzer.py:272-284): strip, reject
empty, reject a ';' anywhere before the final character of the stripped
query, reject any denylisted keyword occurring as a whitespace-separated
token of the uppercased stripped query. -/
def validate_query (q : List Char) : Option VError :=
  if (pyStrip q).isEmpty then some .emptyQuery
  else if (pyStrip q).dropLast.contains ';' then some .multipleStatements
  else
    match forbidden_keywords.find?
        (fun kw => (pySplit (pyUpper (pyStrip q))).contains kw) with
    | some kw => some (.forbidden kw)
    | none => none

/-- Structured result of execute_query (analyzer.py:364-372). -/
structure QueryResult where
  columns : List String
  rows : List (List Nat)
  rowCount : Nat
  hasMore : Bool
deriving DecidableEq, Repr

/-- execute_query (analyzer.py:254-376).  Order of the source: magic check
(one read of the original file), validation, scratch directory and copies,
read-only connection to the copy, engine execution of the stripped query,
row cap at 1000, and scratch-file removal only on the success path (the
except-handler at analyzer.py:374 re-raises without any cleanup). -/
def execute_query (env : Env) (q : List Char) :
    Except QError QueryResult × List Ev :=
  if env.dbExists = false then (.error .notASqliteDatabase, [])
  else if ¬ env.dbBytes.take 16 = sqliteMagic then
    (.error .notASqliteDatabase, [.readFile .orig])
  else
    match validate_query q with
    | some e => (.error (.validation e), [.readFile .orig])
    | none =>
      let pre : List Ev :=
        [.readFile .orig, .mkScratchDir, .copyFile .orig .scratchDb]
          ++ (if env.walExists then [Ev.copyFile .origWal .scratchWal] else [])
          ++ (if env.shmExists then [Ev.copyFile .origShm .scratchShm] else [])
          ++ [.openConnRO .scratchDb]
      match env.engine (pyStrip q) with
      | .error m => (.error (.engine m), pre ++ [.execSql])
      | .ok r =>
        let rows := r.rows.take 1000
        (.ok { columns := r.columns, rows := rows, rowCount := rows.length,
               hasMore := rows.length == 1000 },
         pre ++ [.execSql, .removeFile .scratchDb]
           ++ (if env.walExists then [Ev.removeFile .scratchWal] else [])
           ++ (if env.shmExists then [Ev.removeFile .scratchShm] else [])
           ++ [.removeDir])

/-- analyze_schema (analyzer.py:107-251).  Magic check, scratch copies,
read-only connection, then the whole schema enumeration as one abstract
engine interaction; scratch files are removed only on the success path
(the except-handler at analyzer.py:249 re-raises without cleanup). -/
def analyze_schema (env : Env) : Except QError Unit × List Ev :=
  if env.dbExists = false then (.error .notASqliteDatabase, [])
  else if ¬ env.dbBytes.take 16 = sqliteMagic then
    (.error .notASqliteDatabase, [.readFile .orig])
  else
    let pre : List Ev :=
      [.readFile .orig, .mkScratchDir, .copyFile .orig .scratchDb]
        ++ (if env.walExists then [Ev.copyFile .origWal .scratchWal] else [])
        ++ (if env.shmExists then [Ev.copyFile .origShm .scratchShm] else [])
        ++ [.openConnRO .scratchDb]
    match env.schemaOp with
    | .error m => (.error (.engine m), pre)
    | .ok _ =>
      (.ok (), pre ++ [.removeFile .scratchDb]
        ++ (if env.walExists then [Ev.removeFile .scratchWal] else [])
        ++ (if env.shmExists then [Ev.removeFile .scratchShm] else [])
        ++ [.removeDir])

/-- File events of recover_deleted_records (analyzer.py:402-476): magic check
(one read), whole-file binary read of the original, then
sqlite3.connect(db_path) on the original database in its default
write-capable mode (analyzer.py:433); the later catalogue queries run on
that connection and touch no further file.  Engine failures after the
connect only change the returned value, never this event trace. -/
def recover_deleted_records_trace (env : Env) : List Ev :=
  if env.dbExists = false then []
  else if ¬ env.dbBytes.take 16 = sqliteMagic then [.readFile .orig]
  else [.readFile .orig, .readFile .orig, .openConnRW .orig]

/-! ## WAL analyzer model (tools/sqlite/wal_analyzer.py) -/

/-- Header fields unpacked from the first 28 bytes of the WAL
(wal_analyzer.py:137-140): magic, file_format, page_size, checkpoint_seq,
salt1, salt2 and the first checksum word. -/
structure WalHeader where
  magic : Nat
  fileFormat : Nat
  pageSize : Nat
  checkpointSeq : Nat
  salt1 : Nat
  salt2 : Nat
  checksum : Nat
deriving DecidableEq, Repr

/-- One WAL frame record (wal_analyzer.py:194-201). -/
structure WalFrame where
  pageNumber : Nat
  commitSeq : Nat
  salt1 : Nat
  salt2 : Nat
  cksum1 : Nat
  cksum2 : Nat
  offset : Nat
  size : Nat
deriving DecidableEq, Repr

/-- The wal_info dictionary built by WALAnalyzer (wal_analyzer.py:50-59). -/
structure WalInfo where
  header : Option WalHeader
  frames : List WalFrame
  valid : Bool
  bigEndian : Bool
  pageSize : Nat
  checkpointSeq : Nat
  salt : Nat × Nat
  frameCount : Nat
deriving DecidableEq, Repr

/-- Initial wal_info before any parsing. -/
def WalInfo.initial : WalInfo :=
  { header := none, frames := [], valid := false, bigEndian := false,
    pageSize := 0, checkpointSeq := 0, salt := (0, 0), frameCount := 0 }

/-- u32 decode with the endianness chosen from the magic. -/
def u32 (bigEndian : Bool) (bs : List Nat) : Nat :=
  if bigEndian then be32 bs else le32 bs

/-- WALAnalyzer._analyze_header (wal_analyzer.py:106-156): read the first 32
bytes; fewer than 32 leaves the info invalid.  The magic is always unpacked
little-endian from bytes 0-4; 0x377f0683 selects big-endian and 0x377f0682
little-endian for the seven header words re-unpacked from bytes 0-28; any
other value leaves the info invalid. -/
def analyze_header (wal : List Nat) : WalInfo :=
  let hd := wal.take 32
  if hd.length < 32 then WalInfo.initial
  else
    let m := le32 (sliceN hd 0 4)
    if m = 0x377f0683 ∨ m = 0x377f0682 then
      let bigEndian := m = 0x377f0683
      let fields := fun i => u32 bigEndian (sliceN hd (4 * i) 4)
      { header := some
          { magic := fields 0, fileFormat := fields 1, pageSize := fields 2,
            checkpointSeq := fields 3, salt1 := fields 4, salt2 := fields 5,
            checksum := fields 6 },
        frames := [], valid := true, bigEndian := bigEndian,
        pageSize := fields 2, checkpointSeq := fields 3,
        salt := (fields 4, fields 5), frameCount := 0 }
    else WalInfo.initial

/-- WALAnalyzer._analyze_frames loop body (wal_analyzer.py:174-204) on the
remaining bytes after the 32-byte header.  Each step consumes a 24-byte frame
header and page_size bytes of page image; a short header or a short page
image stops the scan cleanly.  `k` counts already-parsed frames, fixing the
recorded byte offset 32 + k*(24+page_size). -/
def analyze_frames (bigEndian : Bool) (ps : Nat) (fuel : Nat)
    (rest : List Nat) (k : Nat) : List WalFrame :=
  match fuel with
  | 0 => []
  | fuel + 1 =>
    if rest.length < 24 then []
    else
      let hdr := rest.take 24
      let body := rest.drop 24
      if body.length < ps then []
      else
        { pageNumber := u32 bigEndian (sliceN hdr 0 4),
          commitSeq := u32 bigEndian (sliceN hdr 4 4),
          salt1 := u32 bigEndian (sliceN hdr 8 4),
          salt2 := u32 bigEndian (sliceN hdr 12 4),
          cksum1 := u32 bigEndian (sliceN hdr 16 4),
          cksum2 := u32 bigEndian (sliceN hdr 20 4),
          offset := 32 + k * (24 + ps),
          size := 24 + ps } :: analyze_frames bigEndian ps fuel (body.drop ps) (k + 1)

/-- WALAnalyzer.analyze (wal_analyzer.py:66-104) on the WAL bytes (the scan
runs on a byte-for-byte scratch copy): parse the header, and scan frames only
when the header was valid.  The fuel rest.length + 1 cannot run out, since
every loop iteration consumes at least the 24-byte frame header. -/
def analyze_wal (wal : List Nat) : WalInfo :=
  let info := analyze_header wal
  if info.valid then
    let fs := analyze_frames info.bigEndian info.pageSize
      ((wal.drop 32).length + 1) (wal.drop 32) 0
    { info with frames := fs, frameCount := fs.length }
  else info

/-- WALAnalyzer.compare_with_db (wal_analyzer.py:328-412): analyze the WAL,
read PRAGMA page_size from the database copy (`dbPs`), and for each frame
compare the dbPs bytes of the main file at offset 100 + (page_number-1)*dbPs
with the page_size bytes of the WAL at the frame's offset + 24; every
mismatching frame is reported as (page_number, commit_seq). -/
def compare_with_db (db wal : List Nat) (dbPs : Nat) : List (Nat × Nat) :=
  let info := analyze_wal wal
  (info.frames.filter fun fr =>
      !(sliceN db (100 + (fr.pageNumber - 1) * dbPs) dbPs ==
        sliceN wal (fr.offset + 24) info.pageSize)).map
    fun fr => (fr.pageNumber, fr.commitSeq)

/-- File events of WALAnalyzer.analyze (wal_analyzer.py:66-104): scratch
directory, copies of the database and WAL, header read on the WAL copy, a
second open of the WAL copy for the frame scan when the header is valid, and
removal of the scratch files (reached on this path, where both copies
succeeded and parsing raises nothing). -/
def analyze_wal_trace (env : Env) (walBytes : List Nat) : List Ev :=
  if env.dbExists = false then [.mkScratchDir]
  else
    [.mkScratchDir, .copyFile .orig .scratchDb, .copyFile .origWal .scratchWal,
     .readFile .scratchWal]
      ++ (if (analyze_header walBytes).valid then [Ev.readFile .scratchWal] else [])
      ++ [.removeFile .scratchDb, .removeFile .scratchWal, .removeDir]

/-- File events of WALAnalyzer.extract_deleted_records
(wal_analyzer.py:209-326) for a fresh analyzer (wal_info not yet valid, so
analyze() runs first): the analyze events, then a second scratch directory,
sqlite3.connect(self.db_path) on the original database in its default
write-capable mode (wal_analyzer.py:231), the scratch recovery database, and
the finally-block cleanup.  The schema and recovery queries in between touch
no further file, whether they succeed or raise. -/
def extract_deleted_records_trace (env : Env) (walBytes : List Nat) : List Ev :=
  if env.walExists = false then []
  else if env.dbExists = false then [.mkScratchDir]
  else
    analyze_wal_trace env walBytes
      ++ [.mkScratchDir, .openConnRW .orig, .openConnRW .scratchRecovery,
          .removeFile .scratchRecovery, .removeDir]

/-! ## Freelist parser model (tools/sqlite/freelist.py) -/

/-- Leaf loop of _collect_freelist_pages (freelist.py:189-195): iterate i over
range(num_leaves); when 8 + 4*i + 4 <= page_size, read a big-endian u32 leaf
page number at trunk_base + 8 + 4*i and append it when positive.  A short
read raises struct.error, caught at freelist.py:206; the second component
records that escape (the appends made so far persist). -/
def leaf_loop (db : List Nat) (ps base : Nat) :
    Nat → Nat → List Nat → List Nat × Bool
  | 0, _, acc => (acc, false)
  | n + 1, i, acc =>
    if 8 + i * 4 + 4 ≤ ps then
      match readBE32 db (base + 8 + i * 4) with
      | none => (acc, true)
      | some leaf =>
        leaf_loop db ps base n (i + 1) (if leaf > 0 then acc ++ [leaf] else acc)
    else leaf_loop db ps base n (i + 1) acc

/-- _collect_freelist_pages (freelist.py:162-207).  The Python function
recurses on the next-trunk pointer with no depth bound and no visited set;
`fuel` models the available call-stack depth, and `none` means the chain
needed more nested calls than that (in CPython: the interpreter recursion
limit aborts the walk).  Any struct.error is caught by the handler at
freelist.py:206, ending that invocation with the pages appended so far. -/
def collect_freelist_pages (db : List Nat) (ps : Nat) :
    Nat → Nat → List Nat → Option (List Nat)
  | 0, _, _ => none
  | fuel + 1, trunk, acc =>
    let base := (trunk - 1) * ps
    match readBE32 db base with
    | none => some acc
    | some _pageType =>
      match readBE32 db (base + 4) with
      | none => some acc
      | some numLeaves =>
        match leaf_loop db ps base numLeaves 0 (acc ++ [trunk]) with
        | (acc2, true) => some acc2
        | (acc2, false) =>
          if 8 + numLeaves * 4 + 4 ≤ ps then
            match readBE32 db (base + 8 + numLeaves * 4) with
            | none => some acc2
            | some nt =>
              if nt > 0 then collect_freelist_pages db ps fuel nt acc2
              else some acc2
          else some acc2

/-- _read_database_header (freelist.py:131-160): big-endian u16 page size at
byte 16 (1 means 65536, 0 keeps the prior PRAGMA value), freelist trunk page
at bytes 32-36 and declared freelist page count at bytes 36-40; when both are
positive the trunk chain is collected starting from the trunk page.  A short
header raises struct.error, caught at freelist.py:159 with no pages
collected.  The result is the free_pages list, `none` when the chain walk
exhausts the modelled call-stack depth `fuel`. -/
def read_database_header (db : List Nat) (priorPs fuel : Nat) :
    Option (List Nat) :=
  match readBE16 db 16, readBE32 db 32, readBE32 db 36 with
  | some ps0, some trunk, some cnt =>
    let ps1 := if ps0 = 1 then 65536 else ps0
    let ps := if ps1 > 0 then ps1 else priorPs
    if trunk > 0 ∧ cnt > 0 then collect_freelist_pages db ps fuel trunk []
    else some []
  | _, _, _ => some []

/-- _decode_varint loop body (freelist.py:406-415): at most 9 iterations;
each shifts in the low 7 bits of the next byte, returning (value, i+1) when
the continuation bit 0x80 is clear; running past the end of the buffer, or
exhausting all 9 iterations, falls through to `return 0, 1`. -/
def decode_varint_loop (data : List Nat) (offset : Nat) :
    Nat → Nat → Nat → Nat × Nat
  | 0, _, _ => (0, 1)
  | n + 1, i, value =>
    if data.length ≤ offset + i then (0, 1)
    else
      let byte := data.getD (offset + i) 0
      let value2 := value * 128 + byte % 128
      if byte % 256 / 128 = 0 then (value2, i + 1)
      else decode_varint_loop data offset n (i + 1) value2

/-- _decode_varint (freelist.py:395-418): big-endian base-128 decode reading
at most 9 bytes from `offset`. -/
def decode_varint (data : List Nat) (offset : Nat) : Nat × Nat :=
  decode_varint_loop data offset 9 0 0

/-! ## Shared lemmas and concrete environments -/

deriving instance DecidableEq for Except

/-- When the magic check passes and validation fails, execute_query stops with
that validation error after exactly one read of the original file. -/
theorem execute_query_validation_eq (env : Env) (q : List Char) (e : VError)
    (hm : magicOk env) (hv : validate_query q = some e) :
    execute_query env q = (.error (.validation e), [.readFile .orig]) := by
  obtain ⟨h1, h2⟩ := hm
  simp [execute_query, h1, h2, hv]

/-- Environment of a well-formed database file with a cooperative engine. -/
def envOk : Env :=
  { dbExists := true, dbBytes := sqliteMagic, walExists := false,
    shmExists := false, engine := fun _ => .ok { columns := [], rows := [] },
    schemaOp := .ok () }

/-- Same path with different database content that still passes the magic
check. -/
def envOk2 : Env := { envOk with dbBytes := sqliteMagic ++ [7, 7] }

/-- Same path holding an empty (hence non-SQLite) file. -/
def envEmptyFile : Env := { envOk with dbBytes := [] }

/-! ## C9: decode_varint termination and read bound -/

theorem decode_varint_loop_snd (data : List Nat) (offset : Nat) :
    ∀ n i v, i + n ≤ 9 →
      1 ≤ (decode_varint_loop data offset n i v).2 ∧
        (decode_varint_loop data offset n i v).2 ≤ 9 := by
  intro n
  induction n with
  | zero => intro i v _; simp only [decode_varint_loop]; exact ⟨by omega, by omega⟩
  | succ n ih =>
      intro i v h
      simp only [decode_varint_loop]
      by_cases hl : data.length ≤ offset + i
      · simp only [if_pos hl]; exact ⟨by omega, by omega⟩
      · simp only [if_neg hl]
        by_cases hb : data.getD (offset + i) 0 % 256 / 128 = 0
        · simp only [if_pos hb]; exact ⟨by omega, by omega⟩
        · simp only [if_neg hb]
          exact ih (i + 1) _ (by omega)

theorem decode_varint_loop_take (data : List Nat) (offset : Nat) :
    ∀ n i v, i + n ≤ 9 →
      decode_varint_loop data offset n i v =
        decode_varint_loop (data.take (offset + 9)) offset n i v := by
  intro n
  induction n with
  | zero => intro i v _; rfl
  | succ n ih =>
      intro i v h
      have hlen : (data.take (offset + 9)).length ≤ offset + i ↔
          data.length ≤ offset + i := by
        simp only [List.length_take]
        omega
      have hgd : (data.take (offset + 9)).getD (offset + i) 0 =
          data.getD (offset + i) 0 := by
        simp only [List.getD_eq_getElem?_getD,
          List.getElem?_take_of_lt (show offset + i < offset + 9 by omega)]
      simp only [decode_varint_loop, hgd]
      by_cases hl : data.length ≤ offset + i
      · rw [if_pos hl, if_pos (hlen.mpr hl)]
      · rw [if_neg hl, if_neg (fun hc => hl (hlen.mp hc))]
        by_cases hb : data.getD (offset + i) 0 % 256 / 128 = 0
        · rw [if_pos hb, if_pos hb]
        · rw [if_neg hb, if_neg hb]
          exact ih (i + 1) _ (by omega)

/-- C9: for every byte buffer and offset, _decode_varint terminates having
examined at most the 9 bytes data[offset..offset+9) — its result is unchanged
if the buffer is cut there, even on adversarial all-continuation input — and
its bytes_read component lies between 1 and 9. -/
theorem decode_varint_terminates_within_9 (data : List Nat) (offset : Nat) :
    1 ≤ (decode_varint data offset).2 ∧ (decode_varint data offset).2 ≤ 9 ∧
      decode_varint data offset = decode_varint (data.take (offset + 9)) offset ∧
      decode_varint (List.replicate 12 255) 0 = (0, 1) :=
  ⟨(decode_varint_loop_snd data offset 9 0 0 (by omega)).1,
   (decode_varint_loop_snd data offset 9 0 0 (by omega)).2,
   decode_varint_loop_take data offset 9 0 0 (by omega),
   by decide⟩

/-! ## C10: empty or all-whitespace query -/

/-- C10: a query that strips to nothing is rejected with the Empty-query
validation error after only the 16-byte magic read — before any connection
is opened or any SQL is executed (the trace holds no openConn and no execSql
event). -/
theorem execute_query_empty_rejected (env : Env) (q : List Char)
    (hm : magicOk env) (hq : pyStrip q = []) :
    execute_query env q = (.error (.validation .emptyQuery), [.readFile .orig]) := by
  apply execute_query_validation_eq env q _ hm
  simp [validate_query, hq]

/-- C10 witness at the whitespace-only query "   " on a valid database. -/
theorem execute_query_empty_rejected_witness :
    magicOk envOk ∧ pyStrip "   ".toList = [] ∧
      execute_query envOk "   ".toList =
        (.error (.validation .emptyQuery), [.readFile .orig]) :=
  ⟨by decide, by decide, execute_query_empty_rejected envOk _ (by decide) (by decide)⟩

/-! ## C5: semicolon before the final character -/

/-- C5 counterexample: "SELECT 1; " has a ';' before its final character
(the final character is a space), yet execute_query on a valid database
strips the query first, passes validation, executes the SQL and succeeds —
it does not fail with the multiple-statements validation error. -/
theorem execute_query_trailing_semicolon_accepted :
    ';' ∈ ("SELECT 1; ".toList).dropLast ∧
      (execute_query envOk "SELECT 1; ".toList).1 =
        .ok { columns := [], rows := [], rowCount := 0, hasMore := false } ∧
      Ev.execSql ∈ (execute_query envOk "SELECT 1; ".toList).2 :=
  ⟨by decide, by decide, by decide⟩

/-- C5 amended: whenever the whitespace-stripped query still has a ';' before
its final character, execute_query on a valid database fails with the
multiple-statements validation error having executed nothing (the trace is
only the magic read). -/
theorem execute_query_semicolon_in_stripped_rejected (env : Env) (q : List Char)
    (hm : magicOk env) (hsemi : ';' ∈ (pyStrip q).dropLast) :
    execute_query env q =
      (.error (.validation .multipleStatements), [.readFile .orig]) := by
  apply execute_query_validation_eq env q _ hm
  have hne : (pyStrip q).isEmpty = false := by
    cases hs : pyStrip q with
    | nil => rw [hs] at hsemi; simp at hsemi
    | cons a l => simp
  simp [validate_query, hne, hsemi]

/-- C5 amended witness at "SELECT 1; SELECT 2". -/
theorem execute_query_semicolon_in_stripped_rejected_witness :
    magicOk envOk ∧ ';' ∈ (pyStrip "SELECT 1; SELECT 2".toList).dropLast ∧
      execute_query envOk "SELECT 1; SELECT 2".toList =
        (.error (.validation .multipleStatements), [.readFile .orig]) :=
  ⟨by decide, by decide,
   execute_query_semicolon_in_stripped_rejected envOk _ (by decide) (by decide)⟩

/-! ## C4: does validation failure precede all file I/O, independent of the
file content? -/

/-- C4 counterexample: on the multi-statement query "SELECT 1; SELECT 2" the
failure behaviour of execute_query differs between two contents of the
database file (a valid header gives the validation error, an empty file gives
the not-a-SQLite-database error), and even in the validating run one read of
the database file happens before the failure — so validation does not
short-circuit before all file I/O. -/
theorem execute_query_validation_sees_file_content :
    (execute_query envOk "SELECT 1; SELECT 2".toList).1 =
        .error (.validation .multipleStatements) ∧
      (execute_query envEmptyFile "SELECT 1; SELECT 2".toList).1 =
        .error .notASqliteDatabase ∧
      (execute_query envOk "SELECT 1; SELECT 2".toList).1 ≠
        (execute_query envEmptyFile "SELECT 1; SELECT 2".toList).1 ∧
      (execute_query envOk "SELECT 1; SELECT 2".toList).2 = [.readFile .orig] :=
  ⟨by decide, by decide, by decide, by decide⟩

/-- C4 amended: once the 16-byte magic check has passed, a validation failure
short-circuits before any scratch copy, connection or SQL execution (the
trace holds only the magic read), and the call's outcome is then identical
for any two database contents that pass the magic check. -/
theorem execute_query_validation_uniform_after_magic (env1 env2 : Env)
    (q : List Char) (e : VError) (h1 : magicOk env1) (h2 : magicOk env2)
    (hv : validate_query q = some e) :
    execute_query env1 q = execute_query env2 q ∧
      execute_query env1 q = (.error (.validation e), [.readFile .orig]) := by
  have a1 := execute_query_validation_eq env1 q e h1 hv
  have a2 := execute_query_validation_eq env2 q e h2 hv
  exact ⟨a1.trans a2.symm, a1⟩

/-- C4 amended witness: two valid databases with different bytes, compared on
a validation-failing query. -/
theorem execute_query_validation_uniform_after_magic_witness :
    magicOk envOk ∧ magicOk envOk2 ∧
      validate_query "SELECT 1; SELECT 2".toList = some VError.multipleStatements ∧
      execute_query envOk "SELECT 1; SELECT 2".toList =
        execute_query envOk2 "SELECT 1; SELECT 2".toList :=
  ⟨by decide, by decide, by decide,
   (execute_query_validation_uniform_after_magic envOk envOk2
     "SELECT 1; SELECT 2".toList VError.multipleStatements
     (by decide) (by decide) (by decide)).1⟩

/-! ## C6: forbidden keywords -/

/-- C6: any SQL string containing one of the eight denylisted keywords as a
whole case-insensitive whitespace-separated token is rejected by
execute_query with a validation error, with nothing executed (the trace is
only the magic read; no connection, no copy, no SQL). -/
theorem execute_query_forbidden_token_rejected (env : Env) (q : List Char)
    (kw : List Char) (hm : magicOk env) (hkw : kw ∈ forbidden_keywords)
    (ht : kw ∈ pySplit (pyUpper q)) :
    ∃ e, execute_query env q = (.error (.validation e), [.readFile .orig]) := by
  have ht2 : kw ∈ pySplit (pyUpper (pyStrip q)) := by
    rw [pySplit_pyUpper_pyStrip]; exact ht
  have hv : ∃ e, validate_query q = some e := by
    by_cases hemp : (pyStrip q).isEmpty
    · exact ⟨.emptyQuery, by simp [validate_query, hemp]⟩
    · by_cases hsemi : ';' ∈ (pyStrip q).dropLast
      · exact ⟨.multipleStatements, by simp [validate_query, hemp, hsemi]⟩
      · have hval : validate_query q =
            match forbidden_keywords.find?
              (fun kw2 => (pySplit (pyUpper (pyStrip q))).contains kw2) with
            | some kw2 => some (.forbidden kw2)
            | none => none := by
          simp [validate_query, hemp, hsemi]
        cases hf : forbidden_keywords.find?
            (fun kw2 => (pySplit (pyUpper (pyStrip q))).contains kw2) with
        | none =>
            exfalso
            have h2 := List.find?_eq_none.mp hf kw hkw
            have h3 : (pySplit (pyUpper (pyStrip q))).contains kw = true := by
              simpa using ht2
            exact h2 h3
        | some kw2 =>
            exact ⟨.forbidden kw2, by rw [hval, hf]⟩
  obtain ⟨e, he⟩ := hv
  exact ⟨e, execute_query_validation_eq env q e hm he⟩

/-- C6 witness: a lower-case "delete" token is caught on a valid database. -/
theorem execute_query_forbidden_token_rejected_witness :
    "DELETE".toList ∈ forbidden_keywords ∧
      "DELETE".toList ∈ pySplit (pyUpper "delete FROM messages".toList) ∧
      ∃ e, execute_query envOk "delete FROM messages".toList =
        (.error (.validation e), [.readFile .orig]) :=
  ⟨by decide, by decide,
   execute_query_forbidden_token_rejected envOk "delete FROM messages".toList
     "DELETE".toList (by decide) (by decide) (by decide)⟩

/-! ## C2: scratch-file cleanup on error paths -/

/-- Environment whose engine fails every query (a valid database file with a
WAL sibling, queried for a missing table). -/
def envEngineFail : Env :=
  { dbExists := true, dbBytes := sqliteMagic, walExists := true,
    shmExists := false, engine := fun _ => .error "no such table: missing",
    schemaOp := .error "database disk image is malformed" }

/-- C2: when the engine raises, execute_query re-raises after the scratch
directory and copies were created, and its trace holds no remove event at
all — the scratch files are left behind (likewise analyze_schema); on the
success path the removals do happen, so only the raising exit paths leak. -/
theorem scratch_files_leak_on_engine_error :
    (execute_query envEngineFail "SELECT * FROM missing".toList).1 =
        .error (.engine "no such table: missing") ∧
      Ev.copyFile .orig .scratchDb ∈
        (execute_query envEngineFail "SELECT * FROM missing".toList).2 ∧
      Ev.copyFile .origWal .scratchWal ∈
        (execute_query envEngineFail "SELECT * FROM missing".toList).2 ∧
      removesNothing (execute_query envEngineFail "SELECT * FROM missing".toList).2 = true ∧
      (analyze_schema envEngineFail).1 =
        .error (.engine "database disk image is malformed") ∧
      Ev.copyFile .orig .scratchDb ∈ (analyze_schema envEngineFail).2 ∧
      removesNothing (analyze_schema envEngineFail).2 = true ∧
      removesNothing (execute_query envOk "SELECT 1".toList).2 = false :=
  ⟨by decide, by decide, by decide, by decide, by decide, by decide, by decide,
   by decide⟩

/-! ## C1: write-capable opens of the original evidence file -/

/-- envOk with a WAL sibling present. -/
def envWal : Env := { envOk with walExists := true }

/-- C1: recover_deleted_records (analyzer.py:433) and
WALAnalyzer.extract_deleted_records (wal_analyzer.py:231) both open the
original database write-capable via a default-mode sqlite3.connect on
db_path, while execute_query and analyze_schema never do. -/
theorem recovery_opens_original_write_capable :
    Ev.openConnRW .orig ∈ recover_deleted_records_trace envOk ∧
      Ev.openConnRW .orig ∈ extract_deleted_records_trace envWal [] ∧
      Ev.openConnRW .orig ∉ (execute_query envOk "SELECT 1".toList).2 ∧
      Ev.openConnRW .orig ∉ (analyze_schema envOk).2 :=
  ⟨by decide, by decide, by decide, by decide⟩

/-! ## C3: freelist chain collection on a cyclic chain -/

/-- Synthetic 192-byte database, page size 64: the header declares freelist
trunk page 2 and freelist_page_count 2; trunk page 2 (offset 64) has zero
leaves and points to trunk page 3 (offset 128), which points back to trunk
page 2 — an injected cyclic trunk pointer. -/
def cyclicDb : List Nat :=
  List.replicate 16 0 ++ [0, 64] ++ List.replicate 14 0
    ++ [0, 0, 0, 2] ++ [0, 0, 0, 2] ++ List.replicate 32 0
    ++ [0, 0, 0, 3] ++ List.replicate 52 0
    ++ List.replicate 8 0 ++ [0, 0, 0, 2] ++ List.replicate 52 0

/-- C3 counterexample: on cyclicDb the header declares freelist_page_count 2,
yet the collection started by _read_database_header does not complete even
when granted a call-stack depth of 64 nested calls — far beyond any bound
derived from the declared count of 2 — instead of terminating and returning
exactly 2 distinct page numbers. -/
theorem collect_free_pages_cycle_counterexample :
    readBE32 cyclicDb 32 = some 2 ∧ readBE32 cyclicDb 36 = some 2 ∧
      read_database_header cyclicDb 0 64 = none := ⟨rfl, rfl, rfl⟩

/-- On the cyclic chain the two trunk pages hand control to each other for
ever: no finite stack depth lets either call complete. -/
theorem collect_cyclic_stuck : ∀ fuel acc,
    collect_freelist_pages cyclicDb 64 fuel 2 acc = none ∧
      collect_freelist_pages cyclicDb 64 fuel 3 acc = none := by
  intro fuel
  induction fuel with
  | zero => intro acc; exact ⟨rfl, rfl⟩
  | succ f ih =>
      intro acc
      constructor
      · have h : collect_freelist_pages cyclicDb 64 (f + 1) 2 acc =
            collect_freelist_pages cyclicDb 64 f 3 (acc ++ [2]) := rfl
        rw [h]; exact (ih (acc ++ [2])).2
      · have h : collect_freelist_pages cyclicDb 64 (f + 1) 3 acc =
            collect_freelist_pages cyclicDb 64 f 2 (acc ++ [3]) := rfl
        rw [h]; exact (ih (acc ++ [3])).1

/-- C3 amended: _collect_freelist_pages has no recursion bound and no cycle
protection at all — its recursion depth equals the length of the trunk chain
it follows, so on a cyclic trunk chain the walk started by
_read_database_header exceeds every finite call-stack depth (in CPython it
runs until the interpreter recursion limit aborts it) instead of being
bounded by the declared freelist_page_count and returning N distinct pages. -/
theorem collect_free_pages_cycle_unbounded :
    ∀ fuel priorPs, read_database_header cyclicDb priorPs fuel = none := by
  intro fuel priorPs
  have h : read_database_header cyclicDb priorPs fuel =
      collect_freelist_pages cyclicDb 64 fuel 2 [] := rfl
  rw [h]
  exact (collect_cyclic_stuck fuel []).1

/-! ## C7: WAL magic and endianness -/

theorem slice_take32 (wal : List Nat) (j : Nat) (hj : j + 4 ≤ 32) :
    sliceN (wal.take 32) j 4 = sliceN wal j 4 := by
  simp only [sliceN, List.drop_take]
  rw [List.take_take]
  congr 1
  omega

theorem analyze_frames_fields (be : Bool) (ps : Nat) (wal : List Nat) :
    ∀ (n k : Nat) (fr : WalFrame),
      fr ∈ analyze_frames be ps n (wal.drop (32 + k * (24 + ps))) k →
      fr.pageNumber = u32 be (sliceN wal fr.offset 4) ∧
      fr.commitSeq = u32 be (sliceN wal (fr.offset + 4) 4) ∧
      fr.salt1 = u32 be (sliceN wal (fr.offset + 8) 4) ∧
      fr.salt2 = u32 be (sliceN wal (fr.offset + 12) 4) ∧
      fr.cksum1 = u32 be (sliceN wal (fr.offset + 16) 4) ∧
      fr.cksum2 = u32 be (sliceN wal (fr.offset + 20) 4) := by
  intro n
  induction n with
  | zero => intro k fr h; simp [analyze_frames] at h
  | succ n ih =>
      intro k fr h
      simp only [analyze_frames] at h
      by_cases h24 : (wal.drop (32 + k * (24 + ps))).length < 24
      · rw [if_pos h24] at h; simp at h
      · rw [if_neg h24] at h
        by_cases hbody : ((wal.drop (32 + k * (24 + ps))).drop 24).length < ps
        · rw [if_pos hbody] at h; simp at h
        · rw [if_neg hbody] at h
          have hslice : ∀ j, j + 4 ≤ 24 →
              sliceN ((wal.drop (32 + k * (24 + ps))).take 24) j 4 =
                sliceN wal (32 + k * (24 + ps) + j) 4 := by
            intro j hj
            simp only [sliceN, List.drop_take, List.take_take]
            rw [List.drop_drop]
            congr 1
            omega
          rcases List.mem_cons.mp h with hfr | hfr
          · subst hfr
            refine ⟨?_, ?_, ?_, ?_, ?_, ?_⟩
            · show u32 be (sliceN ((wal.drop (32 + k * (24 + ps))).take 24) 0 4) =
                  u32 be (sliceN wal (32 + k * (24 + ps)) 4)
              rw [hslice 0 (by omega)]
              norm_num
            · show u32 be (sliceN ((wal.drop (32 + k * (24 + ps))).take 24) 4 4) =
                  u32 be (sliceN wal (32 + k * (24 + ps) + 4) 4)
              rw [hslice 4 (by omega)]
            · show u32 be (sliceN ((wal.drop (32 + k * (24 + ps))).take 24) 8 4) =
                  u32 be (sliceN wal (32 + k * (24 + ps) + 8) 4)
              rw [hslice 8 (by omega)]
            · show u32 be (sliceN ((wal.drop (32 + k * (24 + ps))).take 24) 12 4) =
                  u32 be (sliceN wal (32 + k * (24 + ps) + 12) 4)
              rw [hslice 12 (by omega)]
            · show u32 be (sliceN ((wal.drop (32 + k * (24 + ps))).take 24) 16 4) =
                  u32 be (sliceN wal (32 + k * (24 + ps) + 16) 4)
              rw [hslice 16 (by omega)]
            · show u32 be (sliceN ((wal.drop (32 + k * (24 + ps))).take 24) 20 4) =
                  u32 be (sliceN wal (32 + k * (24 + ps) + 20) 4)
              rw [hslice 20 (by omega)]
          · have harg : ((wal.drop (32 + k * (24 + ps))).drop 24).drop ps =
                wal.drop (32 + (k + 1) * (24 + ps)) := by
              rw [List.drop_drop, List.drop_drop]
              congr 1
              ring
            rw [harg] at hfr
            exact ih (k + 1) fr hfr

theorem analyze_header_le (wal : List Nat) (h32 : 32 ≤ wal.length)
    (hm : le32 (sliceN wal 0 4) = 0x377f0682) :
    analyze_header wal =
      { header := some
          { magic := le32 (sliceN wal 0 4), fileFormat := le32 (sliceN wal 4 4),
            pageSize := le32 (sliceN wal 8 4),
            checkpointSeq := le32 (sliceN wal 12 4),
            salt1 := le32 (sliceN wal 16 4), salt2 := le32 (sliceN wal 20 4),
            checksum := le32 (sliceN wal 24 4) },
        frames := [], valid := true, bigEndian := false,
        pageSize := le32 (sliceN wal 8 4), checkpointSeq := le32 (sliceN wal 12 4),
        salt := (le32 (sliceN wal 16 4), le32 (sliceN wal 20 4)),
        frameCount := 0 } := by
  have hne : ¬ (wal.take 32).length < 32 := by
    simp only [List.length_take]
    omega
  simp only [analyze_header, if_neg hne]
  norm_num [u32, slice_take32 wal 0 (by omega), slice_take32 wal 4 (by omega),
    slice_take32 wal 8 (by omega), slice_take32 wal 12 (by omega),
    slice_take32 wal 16 (by omega), slice_take32 wal 20 (by omega),
    slice_take32 wal 24 (by omega), hm]

theorem analyze_header_be (wal : List Nat) (h32 : 32 ≤ wal.length)
    (hm : le32 (sliceN wal 0 4) = 0x377f0683) :
    analyze_header wal =
      { header := some
          { magic := be32 (sliceN wal 0 4), fileFormat := be32 (sliceN wal 4 4),
            pageSize := be32 (sliceN wal 8 4),
            checkpointSeq := be32 (sliceN wal 12 4),
            salt1 := be32 (sliceN wal 16 4), salt2 := be32 (sliceN wal 20 4),
            checksum := be32 (sliceN wal 24 4) },
        frames := [], valid := true, bigEndian := true,
        pageSize := be32 (sliceN wal 8 4), checkpointSeq := be32 (sliceN wal 12 4),
        salt := (be32 (sliceN wal 16 4), be32 (sliceN wal 20 4)),
        frameCount := 0 } := by
  have hne : ¬ (wal.take 32).length < 32 := by
    simp only [List.length_take]
    omega
  simp only [analyze_header, if_neg hne]
  norm_num [u32, slice_take32 wal 0 (by omega), slice_take32 wal 4 (by omega),
    slice_take32 wal 8 (by omega), slice_take32 wal 12 (by omega),
    slice_take32 wal 16 (by omega), slice_take32 wal 20 (by omega),
    slice_take32 wal 24 (by omega), hm]

theorem analyze_header_other (wal : List Nat) (h32 : 32 ≤ wal.length)
    (hm1 : le32 (sliceN wal 0 4) ≠ 0x377f0682)
    (hm2 : le32 (sliceN wal 0 4) ≠ 0x377f0683) :
    analyze_header wal = WalInfo.initial := by
  have hne : ¬ (wal.take 32).length < 32 := by
    simp only [List.length_take]
    omega
  simp only [analyze_header, if_neg hne, slice_take32 wal 0 (by omega)]
  rw [if_neg]
  rintro (h | h)
  · exact hm2 h
  · exact hm1 h

/-- C7: on a WAL of at least 32 bytes, the magic word (unpacked by the source
from the first four bytes, always little-endian) decides everything: value
0x377f0682 marks the analysis valid and decodes every remaining multi-byte
header field and every frame-header field little-endian; 0x377f0683 marks it
valid with all those fields decoded big-endian; any other value leaves the
info invalid and no frame is scanned. -/
theorem wal_header_endianness (wal : List Nat) (h32 : 32 ≤ wal.length) :
    (le32 (sliceN wal 0 4) = 0x377f0682 →
      (analyze_wal wal).valid = true ∧ (analyze_wal wal).bigEndian = false ∧
      (analyze_wal wal).header = some
        { magic := le32 (sliceN wal 0 4), fileFormat := le32 (sliceN wal 4 4),
          pageSize := le32 (sliceN wal 8 4),
          checkpointSeq := le32 (sliceN wal 12 4),
          salt1 := le32 (sliceN wal 16 4), salt2 := le32 (sliceN wal 20 4),
          checksum := le32 (sliceN wal 24 4) } ∧
      (∀ fr ∈ (analyze_wal wal).frames,
        fr.pageNumber = le32 (sliceN wal fr.offset 4) ∧
        fr.commitSeq = le32 (sliceN wal (fr.offset + 4) 4) ∧
        fr.salt1 = le32 (sliceN wal (fr.offset + 8) 4) ∧
        fr.salt2 = le32 (sliceN wal (fr.offset + 12) 4) ∧
        fr.cksum1 = le32 (sliceN wal (fr.offset + 16) 4) ∧
        fr.cksum2 = le32 (sliceN wal (fr.offset + 20) 4))) ∧
    (le32 (sliceN wal 0 4) = 0x377f0683 →
      (analyze_wal wal).valid = true ∧ (analyze_wal wal).bigEndian = true ∧
      (analyze_wal wal).header = some
        { magic := be32 (sliceN wal 0 4), fileFormat := be32 (sliceN wal 4 4),
          pageSize := be32 (sliceN wal 8 4),
          checkpointSeq := be32 (sliceN wal 12 4),
          salt1 := be32 (sliceN wal 16 4), salt2 := be32 (sliceN wal 20 4),
          checksum := be32 (sliceN wal 24 4) } ∧
      (∀ fr ∈ (analyze_wal wal).frames,
        fr.pageNumber = be32 (sliceN wal fr.offset 4) ∧
        fr.commitSeq = be32 (sliceN wal (fr.offset + 4) 4) ∧
        fr.salt1 = be32 (sliceN wal (fr.offset + 8) 4) ∧
        fr.salt2 = be32 (sliceN wal (fr.offset + 12) 4) ∧
        fr.cksum1 = be32 (sliceN wal (fr.offset + 16) 4) ∧
        fr.cksum2 = be32 (sliceN wal (fr.offset + 20) 4))) ∧
    (le32 (sliceN wal 0 4) ≠ 0x377f0682 ∧ le32 (sliceN wal 0 4) ≠ 0x377f0683 →
      (analyze_wal wal).valid = false ∧ (analyze_wal wal).frames = []) := by
  refine ⟨?_, ?_, ?_⟩
  · intro hm
    have hh := analyze_header_le wal h32 hm
    have hfr : (analyze_wal wal).frames = analyze_frames false
        (le32 (sliceN wal 8 4)) ((wal.drop 32).length + 1) (wal.drop 32) 0 := by
      simp [analyze_wal, hh]
    refine ⟨by simp [analyze_wal, hh], by simp [analyze_wal, hh],
      by simp [analyze_wal, hh], ?_⟩
    intro fr hmem
    rw [hfr] at hmem
    have h0 : (32 : Nat) + 0 * (24 + le32 (sliceN wal 8 4)) = 32 := by norm_num
    have hf := analyze_frames_fields false (le32 (sliceN wal 8 4)) wal
      ((wal.drop 32).length + 1) 0 fr (by rw [h0]; exact hmem)
    simpa [u32] using hf
  · intro hm
    have hh := analyze_header_be wal h32 hm
    have hfr : (analyze_wal wal).frames = analyze_frames true
        (be32 (sliceN wal 8 4)) ((wal.drop 32).length + 1) (wal.drop 32) 0 := by
      simp [analyze_wal, hh]
    refine ⟨by simp [analyze_wal, hh], by simp [analyze_wal, hh],
      by simp [analyze_wal, hh], ?_⟩
    intro fr hmem
    rw [hfr] at hmem
    have h0 : (32 : Nat) + 0 * (24 + be32 (sliceN wal 8 4)) = 32 := by norm_num
    have hf := analyze_frames_fields true (be32 (sliceN wal 8 4)) wal
      ((wal.drop 32).length + 1) 0 fr (by rw [h0]; exact hmem)
    simpa [u32] using hf
  · rintro ⟨hm1, hm2⟩
    have hh := analyze_header_other wal h32 hm1 hm2
    constructor
    · simp [analyze_wal, hh, WalInfo.initial]
    · simp [analyze_wal, hh, WalInfo.initial]

/-- Concrete little-endian WAL: magic bytes 82 06 7f 37, all other header
fields zero. -/
def walLE : List Nat := [130, 6, 127, 55] ++ List.replicate 28 0

/-- C7 witness on walLE. -/
theorem wal_header_endianness_witness :
    32 ≤ walLE.length ∧ le32 (sliceN walLE 0 4) = 0x377f0682 ∧
      (analyze_wal walLE).valid = true ∧ (analyze_wal walLE).bigEndian = false :=
  ⟨by decide, by decide,
   ((wal_header_endianness walLE (by decide)).1 (by decide)).1,
   ((wal_header_endianness walLE (by decide)).1 (by decide)).2.1⟩

/-! ## C8: WAL-versus-main-file diff -/

/-- C8: with the database page size agreeing with the WAL's (the claim's
single page_size), compare_with_db reports a (page_number, commit_seq) pair
exactly for the frames whose page image (the page_size bytes after the
24-byte frame header in the WAL) differs byte-for-byte from the main file's
bytes at offset 100 + (page_number - 1) * page_size; in particular, when
exactly one frame differs, exactly that frame's pair is reported.  The
page-number hypothesis keeps every frame's offset arithmetic inside the
claim's domain (Python rejects a negative seek for page_number 0). -/
theorem wal_diff_reports_modified_pages (db wal : List Nat) (ps : Nat)
    (hps : ps = (analyze_wal wal).pageSize)
    (_hpn : ∀ fr ∈ (analyze_wal wal).frames, 1 ≤ fr.pageNumber) :
    (∀ p c, (p, c) ∈ compare_with_db db wal ps ↔
      ∃ fr ∈ (analyze_wal wal).frames, fr.pageNumber = p ∧ fr.commitSeq = c ∧
        sliceN db (100 + (p - 1) * ps) ps ≠ sliceN wal (fr.offset + 24) ps) ∧
    ∀ fr0, (analyze_wal wal).frames.filter
        (fun fr => !(sliceN db (100 + (fr.pageNumber - 1) * ps) ps ==
          sliceN wal (fr.offset + 24) ps)) = [fr0] →
      compare_with_db db wal ps = [(fr0.pageNumber, fr0.commitSeq)] := by
  have hcw : compare_with_db db wal ps =
      ((analyze_wal wal).frames.filter
        (fun fr => !(sliceN db (100 + (fr.pageNumber - 1) * ps) ps ==
          sliceN wal (fr.offset + 24) ps))).map
        (fun fr => (fr.pageNumber, fr.commitSeq)) := by
    simp only [compare_with_db]
    rw [← hps]
  constructor
  · intro p c
    rw [hcw]
    constructor
    · intro hmem
      rcases List.mem_map.mp hmem with ⟨fr, hfr, heq⟩
      rcases List.mem_filter.mp hfr with ⟨hin, hne⟩
      have hpc : fr.pageNumber = p ∧ fr.commitSeq = c := by
        constructor
        · exact congrArg Prod.fst heq
        · exact congrArg Prod.snd heq
      refine ⟨fr, hin, hpc.1, hpc.2, ?_⟩
      rw [← hpc.1]
      simpa using hne
    · rintro ⟨fr, hin, hp, hc, hne⟩
      refine List.mem_map.mpr ⟨fr, List.mem_filter.mpr ⟨hin, ?_⟩, by rw [hp, hc]⟩
      rw [hp]
      simpa using hne
  · intro fr0 hf
    rw [hcw, hf]
    rfl

/-- Main database bytes for the C8 witness: 100 header bytes then one 4-byte
page whose last byte differs from the WAL frame image. -/
def dbOne : List Nat := List.replicate 100 0 ++ [9, 9, 9, 1]

/-- WAL for the C8 witness: little-endian header with page_size 4 and one
frame targeting page 1 with image 9 9 9 9. -/
def walOne : List Nat :=
  [130, 6, 127, 55, 0, 0, 0, 0, 4, 0, 0, 0] ++ List.replicate 20 0
    ++ [1, 0, 0, 0] ++ List.replicate 20 0 ++ [9, 9, 9, 9]

/-- The single frame that analyze_wal extracts from walOne. -/
def frOne : WalFrame :=
  { pageNumber := 1, commitSeq := 0, salt1 := 0, salt2 := 0,
    cksum1 := 0, cksum2 := 0, offset := 32, size := 28 }

/-- C8 witness: walOne's one altered frame yields exactly one modified-page
report carrying its page number. -/
theorem wal_diff_reports_modified_pages_witness :
    4 = (analyze_wal walOne).pageSize ∧
      compare_with_db dbOne walOne 4 = [(1, 0)] :=
  ⟨by decide, by
    have h := (wal_diff_reports_modified_pages dbOne walOne 4
      (by decide) (by decide)).2 frOne (by decide)
    exact h⟩
